import Mathlib

/-!
# Verification of the tinywikitext tokenizer and parser state machine

A shallow embedding of `tinywikitext` (files `lextokens.py`, `parser.py`,
`macro.py`, `to_html.py`).  Text is modelled as `List Char`; the ply lexer
built from `lextokens.py` is modelled rule by rule as executable matchers
combined in ply's priority order (function rules in definition order, then
string rules by decreasing pattern length); `WikiTextParser.parse` is
modelled as a state machine over the token stream, emitting the compiler
events of `compiler.py` and raising the errors of `parser.py`.

Objects provided by the external `tinymarkup` package (which is a separate
repository) are modelled from the spec where their behaviour matters and
the modelling is recorded in the corresponding doc comment.
-/

abbrev Chars := List Char

/-- `\s` of Python's `re` module (ASCII portion). -/
def isPyWS (c : Char) : Bool :=
  c = ' ' || c = '\t' || c = '\n' || c = '\r' || c = '\x0b' || c = '\x0c'

/-- `[ \t]`, horizontal whitespace. -/
def isHorizWS (c : Char) : Bool :=
  c = ' ' || c = '\t'

/-- `\w` of Python's `re` module (ASCII portion): letters, digits, underscore. -/
def isWordChar (c : Char) : Bool :=
  c.isAlpha || c.isDigit || c = '_'

/-- `[a-z]` under `re.IGNORECASE`: any ASCII letter. -/
def isAsciiLetter (c : Char) : Bool :=
  ('a' ≤ c && c ≤ 'z') || ('A' ≤ c && c ≤ 'Z')

/-- Python `str.index` / `str.find`: index of the first occurrence of
`needle` in `hay`, `none` when absent (where Python raises `ValueError`).
Models the search in `parser.py` line 126. -/
def strIndex (needle : Chars) : Chars → Option Nat
  | [] => if needle = [] then some 0 else none
  | c :: t =>
      if needle.isPrefixOf (c :: t) then some 0
      else (strIndex needle t).map (· + 1)

/-- The tokens of `lextokens.py` as consumed by the `match` statement of
`WikiTextParser.parse`.  The base lexer's `text` token reaches the parser
as `other_characters`, and bracket macro calls as `linkmacroToken`
(renaming performed by the external `tinymarkup` parser wrapper; modelled
from the spec's token vocabulary, §3). -/
inductive Token where
  | bolditalic
  | bold
  | italic
  | comment (startWs endWs : Chars)
  | br
  | link (text : Chars) (target : Option Chars)
  | macroCallToken (name : Chars) (params : Chars)
  | eols (value : Chars)
  | hr
  | list_item (signature : Chars)
  | definition_term
  | definition_def
  | heading_start (value : Chars)
  | heading_end (value : Chars)
  | htmltag_start (name : Chars) (params : Option Chars)
  | htmltag_end (tag : Chars)
  | linkmacroToken (name : Chars) (params : Chars)
  | whitespace
  | word (w : Chars)
  | other_characters (s : Chars)
  deriving DecidableEq, Repr

/-- A lexer token together with the positional data the parser reads from
the ply lexer: `loc` is the match start (both `token.lexpos` and the
offset behind `Location.from_lextoken`), `prevNL` is the predicate
`start == 0 or lexdata[start-1] == "\n"` of `parser.py` lines 78–80, and
`remainder` is `self.lexer.remainder`, the source text after the match. -/
structure LToken where
  tok : Token
  loc : Nat
  prevNL : Bool
  remainder : Chars
  deriving DecidableEq, Repr

/-! ## The lexer rules of `lextokens.py`

Each `match*` definition hand-compiles one rule's regular expression
(flags `re.MULTILINE | re.IGNORECASE | re.DOTALL`); it returns the token
and the number of characters consumed. -/

/-- `t_comment`: `(?P<cmt_start_ws>\s*)<!--.*?-->(?P<cmd_end_ws>\s*)`. -/
def matchComment (s : Chars) : Option (Token × Nat) :=
  let w1 := s.takeWhile isPyWS
  let r1 := s.drop w1.length
  if ("<!--").toList.isPrefixOf r1 then
    let body := r1.drop 4
    match strIndex ("-->").toList body with
    | none => none
    | some i =>
        let r2 := body.drop (i + 3)
        let w2 := r2.takeWhile isPyWS
        some (Token.comment w1 w2, w1.length + 4 + i + 3 + w2.length)
  else none

/-- `t_link`: `\[\[(?P<link_text>.+?)(?:\|(?P<link_target>.+?))?\]\]`. -/
def matchLink (s : Chars) : Option (Token × Nat) :=
  if ("[[").toList.isPrefixOf s then
    let rest := s.drop 2
    match strIndex ("]]").toList rest with
    | none => none
    | some j =>
        if j = 0 then none
        else
          let span := rest.take j
          let k := span.findIdx (· = '|')
          let tv :=
            if 1 ≤ k ∧ k + 1 < span.length then
              (span.take k, some (span.drop (k + 1)))
            else (span, none)
          some (Token.link tv.1 tv.2, 2 + j + 2)
  else none

/-- `t_macro`: `\[\[(?P<macro_name>[^\d\W]\w+):(?P<macro_params>.*)\]\]`.
The greedy `.*` runs to the last `]]` of the input.  (In ply's rule order
`t_link` is tried first and shadows this rule.) -/
def matchMacroRule (s : Chars) : Option (Token × Nat) :=
  if ("[[").toList.isPrefixOf s then
    let rest := s.drop 2
    match rest with
    | [] => none
    | c :: _ =>
        if isWordChar c && !c.isDigit then
          let name := rest.takeWhile isWordChar
          if name.length < 2 then none
          else
            let r2 := rest.drop name.length
            match r2 with
            | ':' :: r3 =>
                -- the greedy `.*` runs to the last occurrence of "]]":
                -- search the reversed text ("]]" is its own reverse)
                match strIndex (("]]").toList) r3.reverse with
                | none => none
                | some rj =>
                    let plen := r3.length - rj - 2
                    some (Token.macroCallToken name (r3.take plen),
                          2 + name.length + 1 + plen + 2)
            | _ => none
        else none
  else none

/-- `t_eols` iteration `([\t ]*[\n])*`: returns extra newline count and
extra characters consumed.  Each iteration consumes at least one
character, so `s.length` fuel is enough. -/
def eolsLoop (fuel : Nat) (s : Chars) : Nat × Nat :=
  match fuel with
  | 0 => (0, 0)
  | fuel + 1 =>
      let w := s.takeWhile isHorizWS
      match s.drop w.length with
      | '\n' :: r =>
          let (n, k) := eolsLoop fuel r
          (n + 1, w.length + 1 + k)
      | _ => (0, 0)

/-- `t_eols`: `\n([\t ]*[\n])*`; the token value is `"\n" * count`. -/
def matchEols (s : Chars) : Option (Token × Nat) :=
  match s with
  | '\n' :: r =>
      let (n, k) := eolsLoop r.length r
      some (Token.eols (List.replicate (n + 1) '\n'), 1 + k)
  | _ => none

/-- `t_list_item`: `^(?P<listitem_intro>[\*#]+)\s*` (line anchored). -/
def matchListItem (lineStart : Bool) (s : Chars) : Option (Token × Nat) :=
  if lineStart then
    let run := s.takeWhile (fun c => c = '*' || c = '#')
    if run = [] then none
    else
      let ws := (s.drop run.length).takeWhile isPyWS
      some (Token.list_item run, run.length + ws.length)
  else none

/-- `t_heading_start`: `^(?P<heading_start>={1,6})[ \t]*` (line anchored). -/
def matchHeadingStart (lineStart : Bool) (s : Chars) : Option (Token × Nat) :=
  if lineStart then
    let run := s.takeWhile (· = '=')
    if run = [] then none
    else
      let e := min run.length 6
      let ws := (s.drop e).takeWhile isHorizWS
      some (Token.heading_start (List.replicate e '='), e + ws.length)
  else none

/-- `t_heading_end`: `[ \t]*(?P<heading_end>={1,6})[^\n\S]*$`
(`$` under `re.MULTILINE`: end of input or before a newline). -/
def matchHeadingEnd (s : Chars) : Option (Token × Nat) :=
  let w := s.takeWhile isHorizWS
  let r := s.drop w.length
  let run := r.takeWhile (· = '=')
  if run.length = 0 || run.length > 6 then none
  else
    let r2 := r.drop run.length
    let h := r2.takeWhile (fun c => isPyWS c && c ≠ '\n')
    let r3 := r2.drop h.length
    if r3 = [] || r3.head? = some '\n' then
      some (Token.heading_end run, w.length + run.length + h.length)
    else none

/-- `t_htmltag_start`:
`<(?P<html_start_tag>[a-z]+)(?<!br)(?:\s+(?P<html_start_params>[^>]*))?>`.
Only the full letter run can satisfy the tail (a shorter candidate is
followed by a letter), so the negative lookbehind amounts to rejecting a
tag name ending in `br` (case-insensitively, `re.IGNORECASE`). -/
def matchHtmltagStart (s : Chars) : Option (Token × Nat) :=
  match s with
  | '<' :: r =>
      let name := r.takeWhile isAsciiLetter
      if name = [] then none
      else if 2 ≤ name.length &&
              (name.drop (name.length - 2)).map Char.toLower = ('b' :: ['r']) then
        none
      else
        let r2 := r.drop name.length
        match r2 with
        | '>' :: _ => some (Token.htmltag_start name none, 1 + name.length + 1)
        | c :: _ =>
            if isPyWS c then
              let ws := r2.takeWhile isPyWS
              let r3 := r2.drop ws.length
              let ps := r3.takeWhile (· ≠ '>')
              match r3.drop ps.length with
              | '>' :: _ =>
                  some (Token.htmltag_start name (some ps),
                        1 + name.length + ws.length + ps.length + 1)
              | _ => none
            else none
        | [] => none
  | _ => none

/-- `t_htmltag_end`: `</(?P<html_end_tag>[a-z]+)>` — case-insensitive via
`re.IGNORECASE`, so closing tags of any letter case are tokenized. -/
def matchHtmltagEnd (s : Chars) : Option (Token × Nat) :=
  match s with
  | '<' :: '/' :: r =>
      let name := r.takeWhile isAsciiLetter
      if name = [] then none
      else
        match r.drop name.length with
        | '>' :: _ => some (Token.htmltag_end name, 2 + name.length + 1)
        | _ => none
  | _ => none

/-- `t_word`: `\w[\w \t]*\w` — at least two characters, greedy run of
word characters and blanks, backtracking to end on a word character. -/
def matchWord (s : Chars) : Option (Token × Nat) :=
  match s with
  | c :: _ =>
      if isWordChar c then
        let run := s.takeWhile (fun d => isWordChar d || d = ' ' || d = '\t')
        let trimmed := (run.reverse.dropWhile (fun d => !isWordChar d)).reverse
        if 2 ≤ trimmed.length then some (Token.word trimmed, trimmed.length)
        else none
      else none
  | [] => none

/-- `t_br`: `<br\s*/?>` (case-insensitive). -/
def matchBr (s : Chars) : Option (Token × Nat) :=
  match s with
  | '<' :: b :: r :: rest =>
      if b.toLower = 'b' && r.toLower = 'r' then
        let ws := rest.takeWhile isPyWS
        let r2 := rest.drop ws.length
        match r2 with
        | '>' :: _ => some (Token.br, 3 + ws.length + 1)
        | '/' :: '>' :: _ => some (Token.br, 3 + ws.length + 2)
        | _ => none
      else none
  | _ => none

/-- `t_hr`: `^----+` (line anchored, four or more dashes). -/
def matchHr (lineStart : Bool) (s : Chars) : Option (Token × Nat) :=
  if lineStart then
    let run := s.takeWhile (· = '-')
    if 4 ≤ run.length then some (Token.hr, run.length) else none
  else none

/-- `t_whitespace`: `[ \t]+`. -/
def matchWhitespace (s : Chars) : Option (Token × Nat) :=
  let run := s.takeWhile isHorizWS
  if run = [] then none else some (Token.whitespace, run.length)

/-- `t_bolditalic`: `'''''`. -/
def matchBoldItalic (s : Chars) : Option (Token × Nat) :=
  if ("'''''").toList.isPrefixOf s then some (Token.bolditalic, 5) else none

/-- `t_bold`: `'''`. -/
def matchBold (s : Chars) : Option (Token × Nat) :=
  if ("'''").toList.isPrefixOf s then some (Token.bold, 3) else none

/-- `t_italic`: `''`. -/
def matchItalic (s : Chars) : Option (Token × Nat) :=
  if ("''").toList.isPrefixOf s then some (Token.italic, 2) else none

/-- `t_text`: `.` under `re.DOTALL` — any single character.  The parser
receives this token as `other_characters`. -/
def matchText (s : Chars) : Option (Token × Nat) :=
  match s with
  | c :: _ => some (Token.other_characters [c], 1)
  | [] => none

/-- First defined result in a list of rule attempts.  `tryRules` lists
the rules in ply's priority order: function rules in definition order
(`t_comment, t_link, t_macro, t_eols, t_list_item, t_heading_start,
t_heading_end, t_htmltag_start, t_htmltag_end`), then string rules by
decreasing pattern length (`t_word, t_br, t_hr, t_whitespace,
t_bolditalic, t_bold, t_italic, t_text`). -/
def firstSome {α : Type} : List (Option α) → Option α
  | [] => none
  | o :: t =>
      match o with
      | some x => some x
      | none => firstSome t

/-- Attempt the rules in order; the first rule whose pattern matches at
the current position wins (leftmost-alternative semantics of the ply
master regex). -/
def tryRules (lineStart : Bool) (s : Chars) : Option (Token × Nat) :=
  firstSome
    [matchComment s, matchLink s, matchMacroRule s, matchEols s,
     matchListItem lineStart s, matchHeadingStart lineStart s,
     matchHeadingEnd s, matchHtmltagStart s, matchHtmltagEnd s,
     matchWord s, matchBr s, matchHr lineStart s, matchWhitespace s,
     matchBoldItalic s, matchBold s, matchItalic s, matchText s]

/-- The token stream produced by `wikitext_base_lexer`, with the
positional data used by the parser attached to each token. -/
def tokenizeFrom (fuel : Nat) (lineStart : Bool) (pos : Nat) (s : Chars) :
    List LToken :=
  match fuel with
  | 0 => []
  | fuel + 1 =>
      match tryRules lineStart s with
      | none => []
      | some (tok, n) =>
          let rest := s.drop n
          let nextLS : Bool := (s.take n).getLast? == some '\n'
          ⟨tok, pos, lineStart, rest⟩ ::
            tokenizeFrom fuel nextLS (pos + n) rest

/-- Tokenize a whole source text (`Parser.tokenize`). -/
def tokenize (s : Chars) : List LToken :=
  tokenizeFrom s.length true 0 s

/-! ## Macro model (`macro.py` and the dispatch protocol of `parser.py`) -/

/-- Placement context of a macro invocation. -/
inductive Env where
  | block
  | inline
  deriving DecidableEq, Repr

/-- The three macro protocols (`TagMacro`, `RAWMacro`, `LinkMacro`). -/
inductive MacroProtocol where
  | tagM
  | rawM
  | linkM
  deriving DecidableEq, Repr

/-- A macro class: its name, protocol base class, and declared
`context` class attribute (`"block"`, `"inline"`, or `None`). -/
structure MacroDesc where
  name : Chars
  protocol : MacroProtocol
  context : Option Env
  deriving DecidableEq, Repr

/-- Modelled from the spec: `Macro.check_environment` lives in the
external `tinymarkup` package (not under `src/`).  Per the spec, "a
MacroDescriptor declares its supported placement context(s)" and the
dispatcher fails when "the resolved macro declares it does not support
the inferred context"; every macro class in `macro.py` declares exactly
one context, so the check accepts exactly the declared context (an
unset declaration rejects nothing). -/
def checkEnvironment (d : MacroDesc) (env : Env) : Bool :=
  d.context = none || d.context = some env

/-- The macro library registered by `macro.py`. -/
def wikitextMacroLibrary : List MacroDesc :=
  [⟨("blockquote").toList, MacroProtocol.tagM, some Env.block⟩,
   ⟨("div").toList, MacroProtocol.tagM, some Env.block⟩,
   ⟨("s").toList, MacroProtocol.tagM, some Env.inline⟩,
   ⟨("u").toList, MacroProtocol.tagM, some Env.inline⟩,
   ⟨("bibtex").toList, MacroProtocol.rawM, some Env.block⟩,
   ⟨("pre").toList, MacroProtocol.rawM, some Env.block⟩,
   ⟨("poem").toList, MacroProtocol.rawM, some Env.block⟩,
   ⟨("DPL").toList, MacroProtocol.rawM, some Env.block⟩,
   ⟨("gallery").toList, MacroProtocol.rawM, some Env.block⟩,
   ⟨("ref").toList, MacroProtocol.tagM, some Env.inline⟩]

/-- Parameters carried by a macro invocation: the raw attribute text of a
tag-style call (handed to the external `parse_tag_params`, kept opaque
here), or the pipe-split positional parameters of a bracket-style call. -/
inductive MParams where
  | tagP (raw : Option Chars)
  | linkP (ps : List Chars)
  deriving DecidableEq, Repr

/-! ## Compiler events (`compiler.py` / `WikiTextCompiler`) -/

/-- The structural events emitted to the compiler. -/
inductive Event where
  | begin_document
  | end_document
  | begin_paragraph
  | end_paragraph
  | begin_bold
  | end_bold
  | begin_italic
  | end_italic
  | line_break
  | link (text : Chars) (target : Option Chars)
  | horizontal_line
  | begin_heading (level : Nat)
  | end_heading (level : Nat)
  | begin_list_item (signature : Chars)
  | end_list_item
  | finalize_list
  | begin_definition_list
  | end_definition_list
  | begin_definition_term
  | end_definition_term
  | begin_definition_def
  | end_definition_def
  | tag_macro_begin (name : Chars) (params : MParams)
  | tag_macro_end (name : Chars)
  | raw_macro_processed (name source : Chars) (params : MParams)
  | link_macro_processed (name : Chars) (params : List Chars)
  | word (w : Chars)
  | other_characters (s : Chars)
  deriving DecidableEq, Repr

/-! ## Errors

`ParseError`, `InternalError`, `UnknownMacro` and `UnsuitableMacro` come
from `tinymarkup.exceptions`; each carries a message and a `Location`
(modelled as the source offset).  `nameError` and `indexError` model
Python runtime exceptions: the mismatch branch of `end_procedural`
(`parser.py` line 163) interpolates a variable `p` that is not defined in
any enclosing scope, so reaching it raises a `NameError`, and `pop()` on
an empty list raises an `IndexError`. -/
inductive PErr where
  | parseError (msg : Chars) (loc : Nat)
  | internalError (msg : Chars) (loc : Nat)
  | unknownMacro (name : Chars) (loc : Nat)
  | unsuitableMacro (msg : Chars) (loc : Option Nat)
  | nameError (ident : Chars)
  | indexError
  deriving DecidableEq, Repr

/-! ## Parser state (`WikiTextParser.parse` locals) -/

/-- An entry of the procedural-markup stack (`ProceduralStart`). -/
structure ProcEntry where
  name : Chars
  loc : Nat
  deriving DecidableEq, Repr

/-- An entry of the tag-macro stack: `(macro, token.lexpos)` where the
macro instance records its name and the environment it was created in. -/
structure TagEntry where
  name : Chars
  env : Env
  lexpos : Nat
  deriving DecidableEq, Repr

/-- `self.in_definition`: `None`, `"term"`, `"def"` or `"list"`. -/
inductive DefKind where
  | term
  | defn
  | dlist
  deriving DecidableEq, Repr

/-- The mutable per-parse state of `WikiTextParser.parse`.  Stacks grow
at the head, so the head is Python's `stack[-1]` (the most recently
pushed entry). -/
structure PState where
  proceduralStack : List ProcEntry := []
  currentHeadingLevel : Option (Nat × Nat) := none
  previousListItem : Option Chars := none
  currentListItem : Option Chars := none
  tagMacroStack : List TagEntry := []
  inDefinition : Option DefKind := none
  inParagraph : Bool := false
  deriving DecidableEq, Repr

/-- The initial parse state. -/
def initState : PState := {}

/-- `self.current_procedural` / `.current_procedural_name`: the top of
the procedural stack. -/
def currentProceduralName (st : PState) : Option Chars :=
  st.proceduralStack.head?.map (fun e => e.name)

/-! ## Helper closures of `WikiTextParser.parse` -/

/-- `begin_procedural(name)`: push `(name, self.location)`. -/
def beginProcedural (st : PState) (name : Chars) (loc : Nat) : PState :=
  { st with proceduralStack := ⟨name, loc⟩ :: st.proceduralStack }

/-- `end_procedural(name)` (`parser.py` lines 154–164): pop the stack and
compare; the mismatch branch interpolates the undefined variable `p`,
which would raise a `NameError` — but it is unreachable from the call
sites, which call `end_procedural` only when the top name matches. -/
def endProcedural (st : PState) (name : Chars) : Except PErr PState :=
  match st.proceduralStack with
  | [] => throw PErr.indexError
  | entry :: rest =>
      if entry.name ≠ name then throw (PErr.nameError ['p'])
      else pure { st with proceduralStack := rest }

/-- `paragraph_break()` (`parser.py` lines 176–191).  `tokLoc` is the
location of the token bound in the enclosing scope, used by the
unterminated-heading branch. -/
def paragraphBreak (st : PState) (tokLoc : Nat) :
    Except PErr (PState × List Event) :=
  match st.proceduralStack with
  | p :: _ =>
      throw (PErr.parseError
        (("Unterminated ").toList ++ p.name ++ (", missing end about here:").toList)
        p.loc)
  | [] =>
      match st.currentHeadingLevel with
      | some _ =>
          throw (PErr.parseError
            (("Unterminated heading.missing end about here:").toList) tokLoc)
      | none =>
          if st.inParagraph then
            pure ({ st with inParagraph := false }, [Event.end_paragraph])
          else pure (st, [])

/-- `ensure_paragraph()` (`parser.py` lines 193–203).  `loc` models
`self.lexer.location`. -/
def ensureParagraph (st : PState) (loc : Nat) :
    Except PErr (PState × List Event) :=
  if st.inDefinition = some DefKind.dlist then
    throw (PErr.internalError
      (("Can’t put contents in a definition list.").toList) loc)
  else if ¬ st.inParagraph ∧ st.currentListItem = none ∧
          st.currentHeadingLevel = none ∧
          ¬ (st.inDefinition = some DefKind.term ∨
             st.inDefinition = some DefKind.defn) then
    pure ({ st with inParagraph := true }, [Event.begin_paragraph])
  else pure (st, [])

/-! ## Macro dispatch (`process_macro_call`, `parser.py` lines 72–138) -/

/-- The lookahead data the dispatcher reads off the invoking token. -/
structure MacroTok where
  loc : Nat
  prevNL : Bool
  remainder : Chars
  deriving DecidableEq, Repr

/-- `f"</{name}>"`. -/
def endTagFor (name : Chars) : Chars :=
  '<' :: '/' :: (name ++ ['>'])

/-- `next_is_newline_re`: `[ \t]*\n` matched against the remainder. -/
def nextIsNewlineMatch (s : Chars) : Bool :=
  (s.dropWhile isHorizWS).head? == some '\n'

/-- `self.lexer.remainder.split("\n", 1)[0]`. -/
def restOfLine (s : Chars) : Chars :=
  s.takeWhile (· ≠ '\n')

/-- Placement inference of `process_macro_call` (lines 78–93): block iff
the match is at a line start and the remainder starts a line end or the
current line ends with the macro's own closing tag. -/
def inferEnvironment (prevNL : Bool) (remainder : Chars) (endTag : Chars) :
    Env :=
  if prevNL ∧ (nextIsNewlineMatch remainder ∨ endTag.isSuffixOf (restOfLine remainder)) then
    Env.block
  else Env.inline

/-- Modelled from the spec: the message of the `UnsuitableMacro` raised
by the external `Macro.check_environment`. -/
def checkEnvMsg : Chars :=
  ("macro does not support the inferred placement context").toList

/-- `f"Macros used with the link syntax must inherit from LinkMacro
(“{name}” does not.)"`. -/
def linkSyntaxMsg (name : Chars) : Chars :=
  ("Macros used with the link syntax must inherit from LinkMacro (“").toList ++
  name ++ ("” does not.)").toList

/-- `process_macro_call(token, name, params)` (`parser.py` lines 72–138):
resolve the macro, infer the placement context, re-check as inline when a
block inference is rejected (opening a paragraph first; an inline
rejection is terminal and gets the token's location), enforce the
link-syntax protocol restriction, then dispatch on the protocol. -/
def processMacroCall (lib : List MacroDesc) (st : PState) (tk : MacroTok)
    (name : Chars) (params : MParams) (isLinkSyntax : Bool) :
    Except PErr (PState × List Event) := do
  let macroClass ←
    match lib.find? (fun d => d.name = name) with
    | none => throw (PErr.unknownMacro name tk.loc)
    | some d => pure d
  let endTag := endTagFor name
  let environment := inferEnvironment tk.prevNL tk.remainder endTag
  let (st, evs0, environment) ←
    if checkEnvironment macroClass environment then
      pure (st, ([] : List Event), environment)
    else if environment = Env.block then do
      -- maybe the macro likes to be part of a paragraph?
      let (st, evs) ← ensureParagraph st tk.loc
      if checkEnvironment macroClass Env.inline then
        pure (st, evs, Env.inline)
      else
        -- the re-raised exception never gets a location assigned
        throw (PErr.unsuitableMacro checkEnvMsg none)
    else
      throw (PErr.unsuitableMacro checkEnvMsg (some tk.loc))
  if isLinkSyntax ∧ macroClass.protocol ≠ MacroProtocol.linkM then
    throw (PErr.unsuitableMacro (linkSyntaxMsg name) (some tk.loc))
  match macroClass.protocol with
  | MacroProtocol.tagM =>
      pure ({ st with tagMacroStack := ⟨name, environment, tk.loc⟩ :: st.tagMacroStack },
            evs0 ++ [Event.tag_macro_begin name params])
  | MacroProtocol.rawM =>
      match strIndex endTag tk.remainder with
      | none =>
          throw (PErr.parseError
            (("Unterminated <").toList ++ name ++ ("> macro").toList) tk.loc)
      | some pos =>
          pure (st, evs0 ++ [Event.raw_macro_processed name (tk.remainder.take pos) params])
  | MacroProtocol.linkM =>
      pure (st, evs0 ++ [Event.link_macro_processed name
              (match params with
               | MParams.linkP ps => ps
               | MParams.tagP _ => [])])

/-- The cursor arithmetic of the `RAWMacro` branch (`parser.py` lines
125–133): find the literal closing tag in the remainder, take the source
before it as the opaque payload, and advance `lexpos` past the closing
tag so that scanning resumes on the returned continuation. -/
def rawExtract (name remainder : Chars) : Option (Chars × Chars) :=
  match strIndex (endTagFor name) remainder with
  | none => none
  | some pos =>
      some (remainder.take pos, remainder.drop (pos + (endTagFor name).length))

/-! ## The token dispatch loop of `WikiTextParser.parse` -/

/-- `defelement_is_next_re`: `^[;:]\s*` matched against the remainder. -/
def defelementIsNext (s : Chars) : Bool :=
  match s.head? with
  | some c => c = ';' || c = ':'
  | none => false

/-- `listitem_is_next_re` (the pattern of `t_list_item`):
`^(?P<listitem_intro>[\*#]+)\s*` matched against the remainder. -/
def listitemIsNext (s : Chars) : Bool :=
  match s.head? with
  | some c => c = '*' || c = '#'
  | none => false

/-- Modelled from the spec: `tinymarkup.res.paragraph_break_re` is not
under `src/`.  Per the spec (§4.2), the comment handler triggers a
paragraph break when a captured whitespace span "contains a blank-line
pattern"; a blank-line pattern is a newline followed, after horizontal
blanks, by another newline. -/
def paragraphBreakMatch : Chars → Bool
  | [] => false
  | '\n' :: r => nextIsNewlineMatch r || paragraphBreakMatch r
  | _ :: r => paragraphBreakMatch r

/-- One iteration of the token loop of `WikiTextParser.parse`
(`parser.py` lines 205–437): dispatch on the token type, update the
state, and emit compiler events. -/
def step (lib : List MacroDesc) (st : PState) (t : LToken) :
    Except PErr (PState × List Event) :=
  match t.tok with
  | Token.bolditalic => do
      let (st, evs) ← ensureParagraph st t.loc
      if currentProceduralName st ≠ some (("bolditalic").toList) then
        pure (beginProcedural st (("bolditalic").toList) t.loc,
              evs ++ [Event.begin_bold, Event.begin_italic])
      else do
        let st ← endProcedural st (("bolditalic").toList)
        pure (st, evs ++ [Event.end_italic, Event.end_bold])
  | Token.bold => do
      let (st, evs) ← ensureParagraph st t.loc
      if currentProceduralName st ≠ some (("bold").toList) then
        pure (beginProcedural st (("bold").toList) t.loc,
              evs ++ [Event.begin_bold])
      else do
        let st ← endProcedural st (("bold").toList)
        pure (st, evs ++ [Event.end_bold])
  | Token.italic => do
      let (st, evs) ← ensureParagraph st t.loc
      if currentProceduralName st ≠ some (("italic").toList) then
        pure (beginProcedural st (("italic").toList) t.loc,
              evs ++ [Event.begin_italic])
      else do
        let st ← endProcedural st (("italic").toList)
        pure (st, evs ++ [Event.end_italic])
  | Token.comment startWs endWs =>
      if paragraphBreakMatch startWs || paragraphBreakMatch endWs then
        paragraphBreak st t.loc
      else if startWs ≠ [] ∨ endWs ≠ [] then
        pure (st, [Event.other_characters [' ']])
      else pure (st, [])
  | Token.br => pure (st, [Event.line_break])
  | Token.link text target => do
      let (st, evs) ← ensureParagraph st t.loc
      -- `target or None`
      let target := if target = some [] then none else target
      pure (st, evs ++ [Event.link text target])
  | Token.hr => pure (st, [Event.horizontal_line])
  | Token.list_item signature => do
      let (st, evs) ← paragraphBreak st t.loc
      let oldlevel :=
        match st.previousListItem with
        | none => 0
        | some prev => prev.length
      if signature.length > oldlevel + 1 then
        throw (PErr.parseError
          (("List nesting error. You may only increase the nesting level by one per line.").toList)
          t.loc)
      else
        let evs := evs ++ [Event.begin_list_item signature]
        match st.previousListItem with
        | some prev =>
            let l := min prev.length signature.length
            if prev.take l ≠ signature.take l then
              throw (PErr.parseError
                (("You cannot change list type mid list.").toList) t.loc)
            else
              pure ({ st with currentListItem := some signature }, evs)
        | none =>
            pure ({ st with currentListItem := some signature }, evs)
  | Token.definition_term =>
      let evs :=
        if st.inDefinition = none then [Event.begin_definition_list] else []
      pure ({ st with inDefinition := some DefKind.term },
            evs ++ [Event.begin_definition_term])
  | Token.definition_def =>
      if st.inDefinition = none then
        throw (PErr.parseError
          (("A definition must always follow a term.").toList) t.loc)
      else
        pure ({ st with inDefinition := some DefKind.defn },
              [Event.begin_definition_def])
  | Token.heading_start v => do
      let (st, evs) ← paragraphBreak st t.loc
      match st.currentHeadingLevel with
      | some (_, oldloc) =>
          throw (PErr.parseError (("Can’t nest headings.").toList) oldloc)
      | none =>
          let level := v.length
          pure ({ st with currentHeadingLevel := some (level, t.loc) },
                evs ++ [Event.begin_heading level])
  | Token.heading_end v =>
      match st.currentHeadingLevel with
      | none =>
          throw (PErr.parseError
            (("Attempt to close a heading that has not beenopened").toList)
            t.loc)
      | some (oldlevel, oldloc) =>
          let level := v.length
          if oldlevel ≠ level then
            throw (PErr.parseError (("Heading level mismatch").toList) oldloc)
          else
            pure ({ st with currentHeadingLevel := none },
                  [Event.end_heading level])
  | Token.htmltag_start name params =>
      processMacroCall lib st ⟨t.loc, t.prevNL, t.remainder⟩ name
        (MParams.tagP params) false
  | Token.htmltag_end tag =>
      (match st.tagMacroStack with
       | [] =>
          throw (PErr.parseError
            (("Cannot close macro “").toList ++ tag ++ ("”; not opened.").toList)
            t.loc)
       | lastopen :: rest =>
          if lastopen.name ≠ tag then
            throw (PErr.parseError
              (("Macro nesting error, trying to close <").toList ++
               lastopen.name ++ ("> with </").toList ++ tag ++ (">.").toList)
              t.loc)
          else do
            let st := { st with tagMacroStack := rest }
            let (st, evs) ←
              if lastopen.env = Env.block then paragraphBreak st t.loc
              else pure (st, [])
            pure (st, evs ++ [Event.tag_macro_end lastopen.name]))
  | Token.linkmacroToken name params =>
      if (lib.find? (fun d => d.name = name)).isNone then
        throw (PErr.unknownMacro name t.loc)
      else
        let ps := if params = [] then [] else params.splitOn '|'
        processMacroCall lib st ⟨t.loc, t.prevNL, t.remainder⟩ name
          (MParams.linkP ps) true
  | Token.macroCallToken _ _ =>
      -- no case in the parser's match statement: the token is dropped
      pure (st, [])
  | Token.whitespace => pure (st, [Event.other_characters [' ']])
  | Token.eols value =>
      let nlcount := value.count '\n'
      if st.inDefinition = some DefKind.term then
        pure ({ st with inDefinition := some DefKind.dlist },
              [Event.end_definition_term])
      else if st.inDefinition = some DefKind.defn then
        if defelementIsNext t.remainder then
          pure ({ st with inDefinition := some DefKind.dlist },
                [Event.end_definition_def])
        else
          pure ({ st with inDefinition := none },
                [Event.end_definition_def, Event.end_definition_list])
      else
        match st.currentListItem with
        | some cur =>
            if ¬ listitemIsNext t.remainder ∨ nlcount > 1 then
              pure ({ st with previousListItem := none, currentListItem := none },
                    [Event.end_list_item, Event.finalize_list])
            else
              pure ({ st with previousListItem := some cur, currentListItem := none },
                    [Event.end_list_item])
        | none =>
            if nlcount = 1 then
              pure (st, [Event.other_characters [' ']])
            else
              paragraphBreak st t.loc
  | Token.word w => do
      let (st, evs) ← ensureParagraph st t.loc
      pure (st, evs ++ [Event.word w])
  | Token.other_characters s => do
      let (st, evs) ← ensureParagraph st t.loc
      pure (st, evs ++ [Event.other_characters s])

/-- The token loop: thread the state through `step`, concatenating the
emitted events. -/
def parseLoop (lib : List MacroDesc) (st : PState) :
    List LToken → Except PErr (PState × List Event)
  | [] => pure (st, [])
  | t :: ts => do
      let (st1, evs1) ← step lib st t
      let (st2, evs2) ← parseLoop lib st1 ts
      pure (st2, evs1 ++ evs2)

/-- The location of the token still bound in `token` after the loop (the
last token of the stream); the final `paragraph_break()` uses it in its
unterminated-heading branch. -/
def lastLoc (toks : List LToken) : Nat :=
  ((toks.getLast?).map (fun t => t.loc)).getD 0

/-- `f"Macro {name} not closed. Started at:"`. -/
def macroNotClosedMsg (name : Chars) : Chars :=
  ("Macro ").toList ++ name ++ (" not closed. Started at:").toList

/-- `WikiTextParser.parse(source, compiler)` at the token level
(`parser.py` lines 69–450): `begin_document`, the token loop, the final
`paragraph_break()`, and the check that the tag-macro stack is empty —
whose error reports `self.tag_macro_stack[-1]`, the most recently opened
entry, at `Location.from_lexdatapos(..., lexpos)`. -/
def parseTokens (lib : List MacroDesc) (toks : List LToken) :
    Except PErr (List Event) := do
  let (st, evs) ← parseLoop lib initState toks
  let (st2, evs2) ← paragraphBreak st (lastLoc toks)
  match st2.tagMacroStack with
  | lastopen :: _ =>
      throw (PErr.parseError (macroNotClosedMsg lastopen.name) lastopen.lexpos)
  | [] =>
      pure ([Event.begin_document] ++ evs ++ evs2 ++ [Event.end_document])

/-- The lexer-driven parse loop.  The parser consumes tokens lazily from
the lexer; when the `RAWMacro` branch runs, it moves the lexer cursor
past the payload and the closing tag (`self.lexer.lexpos += pos +
len(end_tag)`, `parser.py` line 133), so the skipped text is never
tokenized.  The skip length is recomputed here from the same
`rawExtract` arithmetic; after a skip the character before the cursor is
the `>` of the closing tag, so the next token is not at a line start.
The accumulator `lastL` tracks the location of the token most recently
bound in the loop variable `token`. -/
def runSource (lib : List MacroDesc) (fuel : Nat) (lineStart : Bool)
    (pos : Nat) (s : Chars) (st : PState) (lastL : Nat) :
    Except PErr (PState × List Event × Nat) :=
  match fuel with
  | 0 => pure (st, [], lastL)
  | fuel + 1 =>
      match tryRules lineStart s with
      | none => pure (st, [], lastL)
      | some (tok, n) =>
          let rest := s.drop n
          let t : LToken := ⟨tok, pos, lineStart, rest⟩
          do
            let (st1, evs1) ← step lib st t
            let skipCont :=
              match tok with
              | Token.htmltag_start name _ =>
                  (match lib.find? (fun (d : MacroDesc) => d.name = name) with
                   | some d =>
                       if d.protocol = MacroProtocol.rawM then
                         match rawExtract name rest with
                         | some (payload, cont) =>
                             (payload.length + (endTagFor name).length, cont)
                         | none => (0, rest)
                       else (0, rest)
                   | none => (0, rest))
              | _ => (0, rest)
            let nextLS : Bool :=
              ((s.take n).getLast? == some '\n') && skipCont.1 == 0
            let (st2, evs2, ll) ←
              runSource lib fuel nextLS (pos + n + skipCont.1) skipCont.2 st1 t.loc
            pure (st2, evs1 ++ evs2, ll)

/-- Parse a source text end to end: `begin_document`, the lexer-driven
token loop, the final `paragraph_break()`, and the tag-macro stack
check, as in `WikiTextParser.parse`. -/
def parseSource (lib : List MacroDesc) (source : Chars) :
    Except PErr (List Event) := do
  let (st, evs, ll) ← runSource lib source.length true 0 source initState 0
  let (st2, evs2) ← paragraphBreak st ll
  match st2.tagMacroStack with
  | lastopen :: _ =>
      throw (PErr.parseError (macroNotClosedMsg lastopen.name) lastopen.lexpos)
  | [] =>
      pure ([Event.begin_document] ++ evs ++ evs2 ++ [Event.end_document])


/-! ## The claim's reading of a mismatched procedural close -/

/-- The procedural-markup kind opened/closed by a token, if any. -/
def markerName : Token → Option Chars
  | Token.bolditalic => some (("bolditalic").toList)
  | Token.bold => some (("bold").toList)
  | Token.italic => some (("italic").toList)
  | _ => none

/-- Fold of the parser's toggle discipline over the marker tokens,
looking for a close marker that does not match the top of the stack: a
marker whose kind is already open somewhere on the procedural stack
(read as a closing marker for that construct) while a different kind is
on top. -/
def mismatchedCloseGo (stack : List Chars) : List LToken → Bool
  | [] => false
  | t :: ts =>
      match markerName t.tok with
      | none => mismatchedCloseGo stack ts
      | some k =>
          if stack.head? = some k then mismatchedCloseGo stack.tail ts
          else if stack.contains k then true
          else mismatchedCloseGo (k :: stack) ts

/-- A token stream contains a procedural close marker that does not
match the kind on top of the procedural-markup stack. -/
def hasMismatchedClose (toks : List LToken) : Bool :=
  mismatchedCloseGo [] toks

/-! ## Properties of the first-occurrence search -/

/-- A successful `strIndex` points at an occurrence of the needle. -/
theorem strIndex_isPrefixOf {needle hay : Chars} {i : Nat}
    (h : strIndex needle hay = some i) : needle.isPrefixOf (hay.drop i) := by
  induction hay generalizing i with
  | nil =>
      unfold strIndex at h
      split at h
      · rename_i hn
        subst hn
        obtain rfl : (0 : Nat) = i := by simpa using h
        rfl
      · simp at h
  | cons c t ih =>
      unfold strIndex at h
      split at h
      · rename_i hp
        obtain rfl : (0 : Nat) = i := by simpa using h
        simpa using hp
      · cases ho : strIndex needle t with
        | none => rw [ho] at h; simp at h
        | some j =>
            rw [ho] at h
            simp at h
            subst h
            simpa using ih ho

/-- The haystack splits around the occurrence found by `strIndex`. -/
theorem strIndex_decomp {needle hay : Chars} {i : Nat}
    (h : strIndex needle hay = some i) :
    hay = hay.take i ++ needle ++ hay.drop (i + needle.length) := by
  have hp : needle <+: hay.drop i :=
    List.isPrefixOf_iff_prefix.mp (strIndex_isPrefixOf h)
  have htake : (hay.drop i).take needle.length = needle :=
    (List.prefix_iff_eq_take.mp hp).symm
  have hsplit : (hay.drop i).take needle.length ++ (hay.drop i).drop needle.length
      = hay.drop i := List.take_append_drop _ _
  have hdrop : (hay.drop i).drop needle.length = hay.drop (i + needle.length) := by
    rw [List.drop_drop]
  calc hay = hay.take i ++ hay.drop i := (List.take_append_drop i hay).symm
    _ = hay.take i ++ ((hay.drop i).take needle.length ++ (hay.drop i).drop needle.length) := by
        rw [hsplit]
    _ = hay.take i ++ needle ++ hay.drop (i + needle.length) := by
        rw [htake, hdrop, List.append_assoc]

/-- `strIndex` returns the first occurrence: no earlier position carries
the needle. -/
theorem strIndex_first {needle hay : Chars} {i : Nat}
    (h : strIndex needle hay = some i) :
    ∀ j, j < i → ¬ needle.isPrefixOf (hay.drop j) := by
  induction hay generalizing i with
  | nil =>
      unfold strIndex at h
      split at h
      · obtain rfl : (0 : Nat) = i := by simpa using h
        intro j hj
        exact absurd hj (by omega)
      · simp at h
  | cons c t ih =>
      unfold strIndex at h
      split at h
      · obtain rfl : (0 : Nat) = i := by simpa using h
        intro j hj
        exact absurd hj (by omega)
      · rename_i hp
        cases ho : strIndex needle t with
        | none => rw [ho] at h; simp at h
        | some j0 =>
            rw [ho] at h
            simp at h
            subst h
            intro j hj
            match j with
            | 0 => simpa using hp
            | j' + 1 =>
                have hih := ih ho j' (by omega)
                simpa using hih
/-! ## Claims -/

/-- C2: for every Raw-protocol macro invocation whose literal closing tag
occurs in the remaining source, exactly one raw-macro-processed event is
emitted, whose payload is the text before the first occurrence of the
closing tag, character for character (the remainder splits as
`payload ++ closing tag ++ rest`, with no occurrence of the closing tag
inside the payload); no other event is produced for the payload's
content, and the cursor arithmetic of `rawExtract` resumes scanning on
exactly the text after the closing tag. -/
theorem raw_macro_extraction
    (lib : List MacroDesc) (st : PState) (tk : MacroTok) (name : Chars)
    (params : MParams) (d : MacroDesc) (pos : Nat)
    (hfind : lib.find? (fun d => d.name = name) = some d)
    (hraw : d.protocol = MacroProtocol.rawM)
    (henv : checkEnvironment d
      (inferEnvironment tk.prevNL tk.remainder (endTagFor name)) = true)
    (hidx : strIndex (endTagFor name) tk.remainder = some pos) :
    processMacroCall lib st tk name params false =
      Except.ok (st, [Event.raw_macro_processed name (tk.remainder.take pos) params]) ∧
    tk.remainder =
      tk.remainder.take pos ++ endTagFor name ++
        tk.remainder.drop (pos + (endTagFor name).length) ∧
    (∀ j, j < pos → ¬ (endTagFor name).isPrefixOf (tk.remainder.drop j)) ∧
    rawExtract name tk.remainder =
      some (tk.remainder.take pos,
            tk.remainder.drop (pos + (endTagFor name).length)) := by
  refine ⟨?_, strIndex_decomp hidx, strIndex_first hidx, ?_⟩
  · simp [processMacroCall, hfind, henv, hraw, hidx, pure, Except.pure, bind, Except.bind]
  · simp [rawExtract, hidx]

theorem raw_macro_extraction_witness :
    processMacroCall wikitextMacroLibrary initState
        ⟨5, true, ("literal '''not bold'''</pre>").toList⟩
        (("pre").toList) (MParams.tagP none) false =
      Except.ok (initState,
        [Event.raw_macro_processed (("pre").toList)
          (("literal '''not bold'''").toList) (MParams.tagP none)]) ∧
    ("literal '''not bold'''</pre>").toList =
      (("literal '''not bold'''</pre>").toList.take 22) ++ endTagFor (("pre").toList) ++
        (("literal '''not bold'''</pre>").toList.drop (22 + (endTagFor (("pre").toList)).length)) ∧
    (∀ j, j < 22 →
      ¬ (endTagFor (("pre").toList)).isPrefixOf (("literal '''not bold'''</pre>").toList.drop j)) ∧
    rawExtract (("pre").toList) ("literal '''not bold'''</pre>").toList =
      some (("literal '''not bold'''</pre>").toList.take 22,
            ("literal '''not bold'''</pre>").toList.drop (22 + (endTagFor (("pre").toList)).length)) := by
  have h := raw_macro_extraction wikitextMacroLibrary initState
    ⟨5, true, ("literal '''not bold'''</pre>").toList⟩ (("pre").toList)
    (MParams.tagP none) ⟨("pre").toList, MacroProtocol.rawM, some Env.block⟩ 22
    (by decide) (by decide) (by decide) (by decide)
  simpa using h

/-- C10: the Raw-macro closing delimiter is located by an exact,
case-sensitive substring search for `</name>` with the name as captured
from the opening tag: the lowercase closing tag is found, the
case-variant `</PRE>` is not, driving the dispatcher (and the whole
parse) into the located "Unterminated macro" error — even though the
tokenizer's own tag rules accept either letter case. -/
theorem raw_endtag_case_sensitive :
    rawExtract (("pre").toList) ("abc</pre>tail").toList =
      some (("abc").toList, ("tail").toList) ∧
    rawExtract (("pre").toList) ("abc</PRE>tail").toList = none ∧
    processMacroCall wikitextMacroLibrary initState
        ⟨0, true, ("\nliteral '''not bold'''\n</PRE>").toList⟩
        (("pre").toList) (MParams.tagP none) false =
      Except.error (PErr.parseError (("Unterminated <pre> macro").toList) 0) ∧
    parseSource wikitextMacroLibrary ("<pre>\nliteral\n</PRE>").toList =
      Except.error (PErr.parseError (("Unterminated <pre> macro").toList) 0) ∧
    matchHtmltagEnd ("</PRE>rest").toList =
      some (Token.htmltag_end (("PRE").toList), 6) ∧
    matchHtmltagEnd ("</pre>rest").toList =
      some (Token.htmltag_end (("pre").toList), 6) ∧
    matchHtmltagStart ("<PRE>x").toList =
      some (Token.htmltag_start (("PRE").toList) none, 5) := by
  refine ⟨by decide, by decide, by rfl, by rfl, by decide, by decide, by decide⟩

/-- C1: over a contiguous list block parsed item by item, the signature
sequence `["*","**","***"]` is accepted without error; `["*","***"]`
(depth increased by two in one step) raises the located list-nesting
`ParseError`; and `["*","#"]` (marker type changed at a shared depth)
raises the located mid-list-type-change `ParseError`.  (Locations point
at the offending list-item token, offset 5 in both failing sources.) -/
theorem list_signature_invariants :
    parseSource wikitextMacroLibrary ("* aa\n** bb\n*** cc").toList =
      Except.ok
        [Event.begin_document,
         Event.begin_list_item (("*").toList), Event.word (("aa").toList),
         Event.end_list_item,
         Event.begin_list_item (("**").toList), Event.word (("bb").toList),
         Event.end_list_item,
         Event.begin_list_item (("***").toList), Event.word (("cc").toList),
         Event.end_document] ∧
    parseSource wikitextMacroLibrary ("* aa\n*** bb").toList =
      Except.error (PErr.parseError
        (("List nesting error. You may only increase the nesting level by one per line.").toList)
        5) ∧
    parseSource wikitextMacroLibrary ("* aa\n# bb").toList =
      Except.error (PErr.parseError
        (("You cannot change list type mid list.").toList) 5) := by
  refine ⟨by rfl, by rfl, by rfl⟩

/-- C6: `'''''both'''''` emits begin-bold, begin-italic, the characters
`both`, end-italic, end-bold in LIFO order, and `'''bold'''` emits
begin-bold, the characters `bold`, end-bold; both parses succeed, so no
procedural construct is left open at document end (an open construct
would make the final paragraph break fail). -/
theorem emphasis_round_trip :
    parseSource wikitextMacroLibrary ("'''''both'''''").toList =
      Except.ok
        [Event.begin_document, Event.begin_paragraph,
         Event.begin_bold, Event.begin_italic,
         Event.word (("both").toList),
         Event.end_italic, Event.end_bold,
         Event.end_paragraph, Event.end_document] ∧
    parseSource wikitextMacroLibrary ("'''bold'''").toList =
      Except.ok
        [Event.begin_document, Event.begin_paragraph,
         Event.begin_bold, Event.word (("bold").toList), Event.end_bold,
         Event.end_paragraph, Event.end_document] := by
  refine ⟨by rfl, by rfl⟩

/-- C7: `== Title ==` produces begin-heading(2), the characters `Title`,
end-heading(2); `=== Title ==`, whose closing delimiter run is shorter
than the opening level, fails with the located heading-level-mismatch
`ParseError` (reported at the opening delimiter, offset 0). -/
theorem heading_symmetry :
    parseSource wikitextMacroLibrary ("== Title ==").toList =
      Except.ok
        [Event.begin_document, Event.begin_heading 2,
         Event.word (("Title").toList), Event.end_heading 2,
         Event.end_document] ∧
    parseSource wikitextMacroLibrary ("=== Title ==").toList =
      Except.error (PErr.parseError (("Heading level mismatch").toList) 0) := by
  refine ⟨by rfl, by rfl⟩

/-- C5: a macro invocation's placement is inferred as block exactly when
the opening tag is immediately preceded by a line start and is followed
by the line end (`[ \t]*\n`) or by its own closing tag ending the same
line, and as inline otherwise; a block inference the macro rejects is
retried as inline after opening a paragraph, while an inline-placement
rejection fails immediately with an error carrying the token's
location. -/
theorem macro_placement_inference :
    (∀ (prevNL : Bool) (remainder name : Chars),
        inferEnvironment prevNL remainder (endTagFor name) = Env.block ↔
          (prevNL = true ∧
           (nextIsNewlineMatch remainder = true ∨
            (endTagFor name).isSuffixOf (restOfLine remainder) = true))) ∧
    (∀ (lib : List MacroDesc) (st : PState) (tk : MacroTok) (name : Chars)
        (rawp : Option Chars) (d : MacroDesc),
        lib.find? (fun d => d.name = name) = some d →
        d.protocol = MacroProtocol.tagM →
        checkEnvironment d Env.block = false →
        checkEnvironment d Env.inline = true →
        inferEnvironment tk.prevNL tk.remainder (endTagFor name) = Env.block →
        st.inDefinition = none →
        st.inParagraph = false →
        st.currentListItem = none →
        st.currentHeadingLevel = none →
        processMacroCall lib st tk name (MParams.tagP rawp) false =
          Except.ok
            ({ st with inParagraph := true,
                       tagMacroStack := ⟨name, Env.inline, tk.loc⟩ :: st.tagMacroStack },
             [Event.begin_paragraph, Event.tag_macro_begin name (MParams.tagP rawp)])) ∧
    (∀ (lib : List MacroDesc) (st : PState) (tk : MacroTok) (name : Chars)
        (params : MParams) (d : MacroDesc),
        lib.find? (fun d => d.name = name) = some d →
        checkEnvironment d Env.inline = false →
        inferEnvironment tk.prevNL tk.remainder (endTagFor name) = Env.inline →
        processMacroCall lib st tk name params false =
          Except.error (PErr.unsuitableMacro checkEnvMsg (some tk.loc))) := by
  refine ⟨?_, ?_, ?_⟩
  · intro prevNL remainder name
    unfold inferEnvironment
    split
    · rename_i hc
      simp only [true_iff]
      constructor
      · exact hc.1
      · rcases hc.2 with h | h
        · exact Or.inl h
        · exact Or.inr h
    · rename_i hc
      constructor
      · intro h
        exact absurd h (by simp)
      · intro h
        exact absurd ⟨h.1, by tauto⟩ hc
  · intro lib st tk name rawp d hfind hproto hblock hinline henv hdef hpar hli hhd
    simp [processMacroCall, hfind, hproto, hblock, hinline, henv, hdef, hpar, hli, hhd,
          ensureParagraph, pure, Except.pure, bind, Except.bind]
  · intro lib st tk name params d hfind hinline henv
    simp [processMacroCall, hfind, hinline, henv, pure, Except.pure, bind, Except.bind]

theorem macro_placement_inference_witness :
    (inferEnvironment true (("\nrest").toList) (endTagFor (("s").toList)) = Env.block ↔
      (true = true ∧
       (nextIsNewlineMatch (("\nrest").toList) = true ∨
        (endTagFor (("s").toList)).isSuffixOf (restOfLine (("\nrest").toList)) = true))) ∧
    processMacroCall wikitextMacroLibrary initState ⟨0, true, ("\nxx").toList⟩
        (("s").toList) (MParams.tagP none) false =
      Except.ok
        ({ initState with inParagraph := true,
                          tagMacroStack := [⟨("s").toList, Env.inline, 0⟩] },
         [Event.begin_paragraph, Event.tag_macro_begin (("s").toList) (MParams.tagP none)]) ∧
    processMacroCall wikitextMacroLibrary initState ⟨3, false, ("bb</blockquote>").toList⟩
        (("blockquote").toList) (MParams.tagP none) false =
      Except.error (PErr.unsuitableMacro checkEnvMsg (some 3)) := by
  refine ⟨macro_placement_inference.1 true (("\nrest").toList) (("s").toList),
          ?_, ?_⟩
  · exact macro_placement_inference.2.1 wikitextMacroLibrary initState
      ⟨0, true, ("\nxx").toList⟩ (("s").toList) none
      ⟨("s").toList, MacroProtocol.tagM, some Env.inline⟩
      (by decide) (by decide) (by decide) (by decide) (by decide)
      rfl rfl rfl rfl
  · exact macro_placement_inference.2.2 wikitextMacroLibrary initState
      ⟨3, false, ("bb</blockquote>").toList⟩ (("blockquote").toList)
      (MParams.tagP none)
      ⟨("blockquote").toList, MacroProtocol.tagM, some Env.block⟩
      (by decide) (by decide) (by decide)

/-- C8: two pieces of paragraph content separated by a blank-line run of
`n ≥ 2` newlines produce exactly one paragraph break (one end-paragraph
then one begin-paragraph) between them, for every `n`; at source level
the lexer collapses any run of blank lines into a single `eols` token,
so three and six newlines parse to identical event streams. -/
theorem paragraph_break_idempotent :
    (∀ (n : Nat) (w1 w2 : Chars) (l1 l2 l3 : Nat) (r : Chars),
        2 ≤ n →
        parseTokens wikitextMacroLibrary
          [⟨Token.word w1, l1, true, []⟩,
           ⟨Token.eols (List.replicate n '\n'), l2, false, r⟩,
           ⟨Token.word w2, l3, true, []⟩] =
          Except.ok
            [Event.begin_document, Event.begin_paragraph, Event.word w1,
             Event.end_paragraph, Event.begin_paragraph, Event.word w2,
             Event.end_paragraph, Event.end_document]) ∧
    parseSource wikitextMacroLibrary ("ab\n\n\ncd").toList =
      parseSource wikitextMacroLibrary ("ab\n\n\n\n\n\ncd").toList := by
  constructor
  · intro n w1 w2 l1 l2 l3 r hn
    have hcount : (List.replicate n '\n').count '\n' = n :=
      List.count_replicate_self _ _
    have hne1 : ¬ n = 1 := by omega
    simp [parseTokens, parseLoop, step, ensureParagraph, paragraphBreak,
          initState, currentProceduralName, lastLoc, hcount, hne1,
          pure, Except.pure, bind, Except.bind]
  · rfl

theorem paragraph_break_idempotent_witness :
    parseTokens wikitextMacroLibrary
      [⟨Token.word (("ab").toList), 0, true, []⟩,
       ⟨Token.eols (List.replicate 2 '\n'), 2, false, (("cd").toList)⟩,
       ⟨Token.word (("cd").toList), 4, true, []⟩] =
      Except.ok
        [Event.begin_document, Event.begin_paragraph, Event.word (("ab").toList),
         Event.end_paragraph, Event.begin_paragraph, Event.word (("cd").toList),
         Event.end_paragraph, Event.end_document] :=
  paragraph_break_idempotent.1 2 (("ab").toList) (("cd").toList) 0 2 4
    (("cd").toList) (by decide)

/-- C9: the first list-item token of a contiguous block (no previous
item) with a signature longer than one character fails with the located
list-nesting `ParseError`: the depth rule is checked against an implicit
previous depth of zero at block start. -/
theorem first_item_depth_limit
    (sig : Chars) (loc : Nat) (pn : Bool) (r : Chars)
    (h : 1 < sig.length) :
    parseTokens wikitextMacroLibrary [⟨Token.list_item sig, loc, pn, r⟩] =
      Except.error (PErr.parseError
        (("List nesting error. You may only increase the nesting level by one per line.").toList)
        loc) := by
  have hgt : sig.length > 0 + 1 := by omega
  simp [parseTokens, parseLoop, step, paragraphBreak, initState, hgt,
        pure, Except.pure, bind, Except.bind, throw, throwThe, MonadExceptOf.throw]

theorem first_item_depth_limit_witness :
    parseTokens wikitextMacroLibrary
      [⟨Token.list_item (("**").toList), 0, true, []⟩] =
      Except.error (PErr.parseError
        (("List nesting error. You may only increase the nesting level by one per line.").toList)
        0) :=
  first_item_depth_limit (("**").toList) 0 true [] (by decide)

/-- C3 (counterexample): an input ending with two Tag macros still open.
The parse does fail with a located error, but the error names `div` —
the innermost, most recently opened macro, `tag_macro_stack[-1]` — at
its start location 13, not the outermost first-opened `blockquote` at
location 0 as the claim states. -/
theorem unclosed_macro_counterexample :
    parseSource wikitextMacroLibrary ("<blockquote>\n<div>\naa").toList =
      Except.error (PErr.parseError (macroNotClosedMsg (("div").toList)) 13) ∧
    parseSource wikitextMacroLibrary ("<blockquote>\n<div>\naa").toList ≠
      Except.error
        (PErr.parseError (macroNotClosedMsg (("blockquote").toList)) 0) := by
  constructor
  · rfl
  · intro h
    have h2 : Except.error (α := List Event)
        (PErr.parseError (macroNotClosedMsg (("div").toList)) 13) =
        Except.error (PErr.parseError (macroNotClosedMsg (("blockquote").toList)) 0) :=
      Eq.trans (by rfl) h
    simp [macroNotClosedMsg] at h2

/-- C3 (amended): for every token stream that the loop consumes leaving
no open procedural markup or heading but a non-empty tag-macro stack,
the parse fails with a located error naming the innermost (most recently
opened, top-of-stack) unclosed macro and reporting that macro's start
position; the macro is never silently closed. -/
theorem unclosed_macro_reports_innermost
    (lib : List MacroDesc) (toks : List LToken) (st : PState)
    (evs : List Event) (e : TagEntry) (rest : List TagEntry)
    (hloop : parseLoop lib initState toks = Except.ok (st, evs))
    (hproc : st.proceduralStack = [])
    (hhead : st.currentHeadingLevel = none)
    (hstack : st.tagMacroStack = e :: rest) :
    parseTokens lib toks =
      Except.error (PErr.parseError (macroNotClosedMsg e.name) e.lexpos) := by
  by_cases hp : st.inParagraph
  · simp [parseTokens, hloop, paragraphBreak, hproc, hhead, hstack, hp,
          pure, Except.pure, bind, Except.bind, throw, throwThe, MonadExceptOf.throw]
  · simp [parseTokens, hloop, paragraphBreak, hproc, hhead, hstack, hp,
          pure, Except.pure, bind, Except.bind, throw, throwThe, MonadExceptOf.throw]

theorem unclosed_macro_reports_innermost_witness :
    parseTokens wikitextMacroLibrary
      [⟨Token.htmltag_start (("blockquote").toList) none, 0, true, ("\naa").toList⟩] =
      Except.error
        (PErr.parseError (macroNotClosedMsg (("blockquote").toList)) 0) :=
  unclosed_macro_reports_innermost wikitextMacroLibrary
    [⟨Token.htmltag_start (("blockquote").toList) none, 0, true, ("\naa").toList⟩]
    { tagMacroStack := [⟨("blockquote").toList, Env.block, 0⟩] }
    [Event.tag_macro_begin (("blockquote").toList) (MParams.tagP none)]
    ⟨("blockquote").toList, Env.block, 0⟩ []
    (by rfl) rfl rfl rfl

/-- C4 (counterexample): in `'''aa''bb'''cc'''dd''ee'''` the third
marker is a bold close while bold is open deeper in the stack and italic
is on top — a mismatched close in the claim's sense — yet the parser
raises no error at all: the marker merely opens another bold construct,
later markers pop every entry, and the whole parse succeeds (with
non-LIFO begin/end events). -/
theorem procedural_mismatch_counterexample :
    hasMismatchedClose (tokenize ("'''aa''bb'''cc'''dd''ee'''").toList) = true ∧
    parseSource wikitextMacroLibrary ("'''aa''bb'''cc'''dd''ee'''").toList =
      Except.ok
        [Event.begin_document, Event.begin_paragraph,
         Event.begin_bold, Event.word (("aa").toList),
         Event.begin_italic, Event.word (("bb").toList),
         Event.begin_bold, Event.word (("cc").toList),
         Event.end_bold, Event.word (("dd").toList),
         Event.end_italic, Event.word (("ee").toList),
         Event.end_bold,
         Event.end_paragraph, Event.end_document] := by
  refine ⟨by rfl, by rfl⟩

/-- C4 (amended): a procedural-emphasis marker whose kind differs from
the top of the procedural-markup stack raises no error at that marker —
the parser pushes a new open construct of that kind (toggle semantics);
a mismatch surfaces only if the stack is still non-empty at a paragraph
break or at document end, as a structural `ParseError` reporting the
kind and start location of the most recently opened still-open
construct. -/
theorem procedural_mismatch_toggles :
    (∀ (lib : List MacroDesc) (st : PState) (t : LToken) (k : Chars),
        markerName t.tok = some k →
        st.inDefinition ≠ some DefKind.dlist →
        currentProceduralName st ≠ some k →
        ∃ st' evs, step lib st t = Except.ok (st', evs) ∧
          st'.proceduralStack = ⟨k, t.loc⟩ :: st.proceduralStack) ∧
    (∀ (lib : List MacroDesc) (toks : List LToken) (st : PState)
        (evs : List Event) (p : ProcEntry) (rest : List ProcEntry),
        parseLoop lib initState toks = Except.ok (st, evs) →
        st.proceduralStack = p :: rest →
        parseTokens lib toks =
          Except.error (PErr.parseError
            ((("Unterminated ").toList) ++ p.name ++
             ((", missing end about here:").toList))
            p.loc)) := by
  constructor
  · intro lib st t k hk hdef hname
    have hpar : ∃ st1 evs1, ensureParagraph st t.loc = Except.ok (st1, evs1) ∧
        st1.proceduralStack = st.proceduralStack := by
      unfold ensureParagraph
      split
      · exact absurd (by assumption) hdef
      · split
        · exact ⟨_, _, rfl, rfl⟩
        · exact ⟨_, _, rfl, rfl⟩
    obtain ⟨st1, evs1, hp1, hp2⟩ := hpar
    have hname1 : currentProceduralName st1 ≠ some k := by
      unfold currentProceduralName at hname ⊢
      rw [hp2]
      exact hname
    obtain ⟨tok, loc, prevNL, remainder⟩ := t
    cases tok <;> simp only [markerName, Option.some.injEq,
      reduceCtorEq] at hk
    case bolditalic =>
      subst hk
      refine ⟨beginProcedural st1 (("bolditalic").toList) loc,
              evs1 ++ [Event.begin_bold, Event.begin_italic], ?_, ?_⟩
      · simp [step, hp1, hname1, pure, Except.pure, bind, Except.bind]
        exact fun h => absurd h hname1
      · simp [beginProcedural, hp2]
    case bold =>
      subst hk
      refine ⟨beginProcedural st1 (("bold").toList) loc,
              evs1 ++ [Event.begin_bold], ?_, ?_⟩
      · simp [step, hp1, hname1, pure, Except.pure, bind, Except.bind]
        exact fun h => absurd h hname1
      · simp [beginProcedural, hp2]
    case italic =>
      subst hk
      refine ⟨beginProcedural st1 (("italic").toList) loc,
              evs1 ++ [Event.begin_italic], ?_, ?_⟩
      · simp [step, hp1, hname1, pure, Except.pure, bind, Except.bind]
        exact fun h => absurd h hname1
      · simp [beginProcedural, hp2]
  · intro lib toks st evs p rest hloop hstack
    simp [parseTokens, hloop, paragraphBreak, hstack,
          pure, Except.pure, bind, Except.bind, throw, throwThe, MonadExceptOf.throw]

theorem procedural_mismatch_toggles_witness :
    (∃ st' evs,
        step wikitextMacroLibrary initState ⟨Token.bold, 0, true, []⟩ =
          Except.ok (st', evs) ∧
        st'.proceduralStack = [⟨("bold").toList, 0⟩]) ∧
    parseTokens wikitextMacroLibrary (tokenize ("'''aa").toList) =
      Except.error (PErr.parseError
        ((("Unterminated ").toList) ++ (("bold").toList) ++
         ((", missing end about here:").toList))
        0) := by
  constructor
  · exact procedural_mismatch_toggles.1 wikitextMacroLibrary initState
      ⟨Token.bold, 0, true, []⟩ (("bold").toList) rfl (by decide) (by decide)
  · exact procedural_mismatch_toggles.2 wikitextMacroLibrary
      (tokenize ("'''aa").toList)
      { proceduralStack := [⟨("bold").toList, 0⟩], inParagraph := true }
      [Event.begin_paragraph, Event.begin_bold, Event.word (("aa").toList)]
      ⟨("bold").toList, 0⟩ [] (by rfl) rfl
